import Mathlib

/-!
Shallow embedding of `src/pipelines/cust_etl/pipeline.py`, the SpecForge
analytics ETL: two source reads, an email-masking expression, an inner
equijoin, a grouped count aggregation, an overwrite sink write, and the
orchestrator `run_specforge_analytics_etl`. DataFrames are embedded as
lists of rows; the Spark SQL expressions (INSTR, SUBSTRING, COUNT, the
cast to 32-bit integers) are embedded by their documented semantics.
-/

set_option autoImplicit false

namespace SpecForge

/-- A row of the users source as `read_source_users` selects it:
columns `id` and `email`. -/
structure UserRow where
  id : Int
  email : String
deriving DecidableEq

/-- A row of the projects source as `read_source_projects` selects it:
`id` aliased to `project_id` and `user_id` aliased to `p_user_id`. -/
structure ProjectRow where
  project_id : Int
  p_user_id : Int
deriving DecidableEq

/-- A row produced by `apply_expression_mask_data`: columns `user_id`
and `MASKED_EMAIL`. -/
structure MaskedRow where
  user_id : Int
  MASKED_EMAIL : String
deriving DecidableEq

/-- A row produced by `apply_joiner_user_projects`. -/
structure JoinedRow where
  user_id : Int
  MASKED_EMAIL : String
  project_id : Int
deriving DecidableEq

/-- A row produced by `apply_aggregator_project_count`: `USER_ID`,
`MASKED_EMAIL`, `TOTAL_PROJECTS` (cast to a 32-bit integer). -/
structure AggRow where
  USER_ID : Int
  MASKED_EMAIL : String
  TOTAL_PROJECTS : Int
deriving DecidableEq

/-- SQL `INSTR(s, '@')` on the characters of `s`: the 1-based position of
the first `'@'`, and `0` when there is none. -/
def instrAt : List Char → Nat
  | [] => 0
  | c :: cs => if c = '@' then 1 else if instrAt cs = 0 then 0 else instrAt cs + 1

/-- Spark `substring(s, 1, len)`: the first `len` characters of `s`, and the
empty string when `len ≤ 0` (Spark clamps a non-positive length to an empty
result; `Int.toNat` is that clamp). -/
def sparkSubstring1 (s : String) (len : Int) : String :=
  String.mk (s.toList.take len.toNat)

/-- The masking expression of `apply_expression_mask_data`:
`SUBSTR(email, 1, INSTR(email, '@') - 1) || '@***.com'`. -/
def mask_email (email : String) : String :=
  sparkSubstring1 email ((instrAt email.toList : Int) - 1) ++ "@***.com"

/-- `apply_expression_mask_data`: per row, `user_id := id` and
`MASKED_EMAIL := mask_email email`; a 1:1 projection, no filter. -/
def apply_expression_mask_data (df_users : List UserRow) : List MaskedRow :=
  df_users.map fun u => { user_id := u.id, MASKED_EMAIL := mask_email u.email }

/-- The claim language "characters of email strictly before the first `'@'`",
written independently of the code's INSTR/SUBSTR route. -/
def local_part (email : String) : String :=
  String.mk (email.toList.takeWhile fun c => c ≠ '@')

theorem instrAt_eq_zero_of_not_mem {l : List Char} (h : '@' ∉ l) : instrAt l = 0 := by
  induction l with
  | nil => rfl
  | cons c cs ih =>
    simp only [List.mem_cons, not_or] at h
    simp [instrAt, Ne.symm h.1, ih h.2]

theorem instrAt_append_at (a b : List Char) (ha : '@' ∉ a) :
    instrAt (a ++ '@' :: b) = a.length + 1 := by
  induction a with
  | nil => simp [instrAt]
  | cons c cs ih =>
    simp only [List.mem_cons, not_or] at ha
    have h2 := ih ha.2
    simp [instrAt, Ne.symm ha.1, h2]

theorem takeWhile_append_at (a b : List Char) (ha : '@' ∉ a) :
    ((a ++ '@' :: b).takeWhile fun c => c ≠ '@') = a := by
  induction a with
  | nil => simp [List.takeWhile]
  | cons c cs ih =>
    simp only [List.mem_cons, not_or] at ha
    have hc : ¬c = '@' := fun h => ha.1 h.symm
    have h2 := ih ha.2
    simp only [decide_not] at h2
    simp [List.takeWhile, hc, decide_not, h2]

/-- Decomposition of a character list at its first `'@'`. -/
theorem exists_at_decomp {l : List Char} (h : '@' ∈ l) :
    ∃ a b, l = a ++ '@' :: b ∧ '@' ∉ a := by
  induction l with
  | nil => cases h
  | cons c cs ih =>
    by_cases hc : c = '@'
    · exact ⟨[], cs, by simp [hc], by simp⟩
    · have hcs : '@' ∈ cs := by
        rcases List.mem_cons.mp h with h1 | h1
        · exact absurd h1.symm hc
        · exact h1
      obtain ⟨a, b, rfl, ha⟩ := ih hcs
      exact ⟨c :: a, b, rfl, by simp [ha, Ne.symm hc]⟩

theorem mask_email_decomp (e : String) (a b : List Char)
    (he : e.toList = a ++ '@' :: b) (ha : '@' ∉ a) :
    mask_email e = String.mk a ++ "@***.com" := by
  have h1 : instrAt e.toList = a.length + 1 := by rw [he]; exact instrAt_append_at a b ha
  have h2 : ((instrAt e.toList : Int) - 1).toNat = a.length := by
    rw [h1]; omega
  unfold mask_email sparkSubstring1
  rw [h2, he, List.take_left]

/-- Masking an email that contains `'@'` keeps exactly the characters before
the first `'@'` and appends the literal `"@***.com"`. -/
theorem mask_email_eq_local_part {e : String} (h : '@' ∈ e.toList) :
    mask_email e = local_part e ++ "@***.com" := by
  obtain ⟨a, b, he, ha⟩ := exists_at_decomp h
  rw [mask_email_decomp e a b he ha]
  unfold local_part
  rw [he, takeWhile_append_at a b ha]

/-- The character list of a masked email splits at the appended literal:
the local part holds no `'@'`, and the literal starts with one. -/
theorem mask_email_toList (e : String) (a b : List Char)
    (he : e.toList = a ++ '@' :: b) (ha : '@' ∉ a) :
    (mask_email e).toList = a ++ '@' :: "***.com".toList := by
  rw [mask_email_decomp e a b he ha]
  have h1 : (String.mk a ++ "@***.com").data = a ++ "@***.com".data :=
    String.data_append (String.mk a) "@***.com"
  have h2 : "@***.com".data = '@' :: "***.com".data := by decide
  show (String.mk a ++ "@***.com").data = a ++ '@' :: "***.com".data
  rw [h1, h2]

/-- Masking is idempotent on emails that contain `'@'`. -/
theorem mask_email_idem {e : String} (h : '@' ∈ e.toList) :
    mask_email (mask_email e) = mask_email e := by
  obtain ⟨a, b, he, ha⟩ := exists_at_decomp h
  have h1 := mask_email_toList e a b he ha
  rw [mask_email_decomp (mask_email e) a ("***.com".toList) h1 ha,
    mask_email_decomp e a b he ha]

/-- `apply_joiner_user_projects`: the inner equijoin of the masked users
(master) with the projects (detail) on `user_id = p_user_id`, selecting
`(user_id, MASKED_EMAIL, project_id)`; one output row per matching
(master row, detail row) pair. -/
def apply_joiner_user_projects (df_users_masked : List MaskedRow)
    (df_projects : List ProjectRow) : List JoinedRow :=
  df_users_masked.flatMap fun m =>
    (df_projects.filter fun p => p.p_user_id = m.user_id).map fun p =>
      { user_id := m.user_id, MASKED_EMAIL := m.MASKED_EMAIL, project_id := p.project_id }

/-- The grouping key of `apply_aggregator_project_count`:
`(user_id, MASKED_EMAIL)`. -/
def joinKey (r : JoinedRow) : Int × String := (r.user_id, r.MASKED_EMAIL)

/-- Spark `cast(IntegerType())` on an integral value: reduction to the
signed 32-bit range by truncation to the low 32 bits. -/
def castInt32 (n : Int) : Int := (n + 2 ^ 31) % 2 ^ 32 - 2 ^ 31

/-- The distinct grouping keys of a joined row set. -/
def groupKeys (df_joined : List JoinedRow) : List (Int × String) :=
  (df_joined.map joinKey).dedup

/-- `apply_aggregator_project_count`: group by `(user_id, MASKED_EMAIL)`,
with `TOTAL_PROJECTS = COUNT(project_id)` — the row count of the group,
since `project_id` is never null — cast to a 32-bit integer. -/
def apply_aggregator_project_count (df_joined : List JoinedRow) : List AggRow :=
  (groupKeys df_joined).map fun k =>
    { USER_ID := k.1, MASKED_EMAIL := k.2,
      TOTAL_PROJECTS := castInt32 ((df_joined.filter fun r => joinKey r = k).length) }

/-- Modelled from the spec: the JDBC table write that the sink writer
delegates to Spark. The write itself is not part of
the repository; the spec's sink contract says mode `"overwrite"` replaces
the destination table's entire contents with the given rows, while any
other mode would keep the prior rows. -/
def jdbc_write_table (mode : String) (prior rows : List AggRow) : List AggRow :=
  if mode = "overwrite" then rows else prior ++ rows

/-- `write_target_user_project_analytics`: writes `df_final` to the
destination table with `mode="overwrite"`; `prior` is the destination's
content before the write, the result its content after. -/
def write_target_user_project_analytics (df_final prior : List AggRow) : List AggRow :=
  jdbc_write_table "overwrite" prior df_final

/-- The data flow of `run_specforge_analytics_etl` from source rows to the
destination table's content after the run: mask, join, aggregate, then the
overwrite write against the destination's prior content. -/
def run_specforge_analytics_etl (users : List UserRow) (projects : List ProjectRow)
    (prior : List AggRow) : List AggRow :=
  write_target_user_project_analytics
    (apply_aggregator_project_count
      (apply_joiner_user_projects (apply_expression_mask_data users) projects))
    prior

/-- Lookup of a named column in a raw source row (a column-name/value list),
as Spark's `F.col` resolves a name against the source table. -/
def lookupCol (row : List (String × Int)) (c : String) : Option Int :=
  (row.find? fun p => p.1 = c).map Prod.snd

/-- `read_source_projects` at the level of column names: per source row it
selects `F.col("id").alias("project_id")` and
`F.col("user_id").alias("p_user_id")`; a missing column fails the read
(`none`), as Spark's analyzer would. -/
def read_source_projects :
    List (List (String × Int)) → Option (List (List (String × Int)))
  | [] => some []
  | row :: rest => do
    let pid ← lookupCol row "id"
    let uid ← lookupCol row "user_id"
    let out ← read_source_projects rest
    pure ([("project_id", pid), ("p_user_id", uid)] :: out)

/-- What the `__main__` block does with `sys.argv`. -/
inductive MainResult where
  | usageExit (code : Nat)
  | run (jdbc_url db_user db_password : String)
deriving DecidableEq

/-- The `__main__` block: with fewer than 4 entries in `sys.argv` it prints
usage and exits with status 1; otherwise it calls
`run_specforge_analytics_etl(sys.argv[1], sys.argv[2], sys.argv[3])`. -/
def main_entry (argv : List String) : MainResult :=
  if argv.length < 4 then MainResult.usageExit 1
  else MainResult.run (argv.getD 1 "") (argv.getD 2 "") (argv.getD 3 "")

/-- C9: the masking function is deterministic and idempotent — for every
email `e` containing `'@'`, `mask(e)` is the substring of `e` before the
first `'@'` concatenated with `"@***.com"`, evaluating it twice gives
identical results, and masking an already-masked email leaves it
unchanged. -/
theorem mask_email_deterministic_idempotent (e : String) (h : '@' ∈ e.toList) :
    mask_email e = local_part e ++ "@***.com" ∧
    mask_email e = mask_email e ∧
    mask_email (mask_email e) = mask_email e :=
  ⟨mask_email_eq_local_part h, rfl, mask_email_idem h⟩

/-- Witness for C9 at the concrete email `"a@x.com"`. -/
theorem mask_email_deterministic_idempotent_witness :
    mask_email "a@x.com" = local_part "a@x.com" ++ "@***.com" ∧
    mask_email "a@x.com" = mask_email "a@x.com" ∧
    mask_email (mask_email "a@x.com") = mask_email "a@x.com" :=
  mask_email_deterministic_idempotent "a@x.com" (by decide)

/-- C2: the masking transform is 1:1 — the output has exactly the input's
row count, and pairs each input row with one output row whose `user_id` is
the original `id` and, whenever the email contains `'@'`, whose
`MASKED_EMAIL` is the characters strictly before the first `'@'` followed
by `"@***.com"`. -/
theorem apply_expression_mask_data_rowwise (df_users : List UserRow) :
    (apply_expression_mask_data df_users).length = df_users.length ∧
    List.Forall₂ (fun u m => m.user_id = u.id ∧
        ('@' ∈ u.email.toList → m.MASKED_EMAIL = local_part u.email ++ "@***.com"))
      df_users (apply_expression_mask_data df_users) := by
  refine ⟨by simp [apply_expression_mask_data], ?_⟩
  rw [apply_expression_mask_data, List.forall₂_map_right_iff, List.forall₂_same]
  exact fun u _ => ⟨rfl, fun h => mask_email_eq_local_part h⟩

/-- C10: a user row whose email has no `'@'` is kept, not rejected —
INSTR gives 0, the substring length is −1 and the substring empty, so the
row surfaces with `MASKED_EMAIL = "@***.com"` and the row count is
unchanged. -/
theorem apply_expression_mask_data_no_at (df_users : List UserRow) (u : UserRow)
    (hu : u ∈ df_users) (hno : '@' ∉ u.email.toList) :
    instrAt u.email.toList = 0 ∧
    (instrAt u.email.toList : Int) - 1 = -1 ∧
    mask_email u.email = "@***.com" ∧
    ({ user_id := u.id, MASKED_EMAIL := "@***.com" } : MaskedRow)
        ∈ apply_expression_mask_data df_users ∧
    (apply_expression_mask_data df_users).length = df_users.length := by
  have h0 := instrAt_eq_zero_of_not_mem hno
  have hm : mask_email u.email = "@***.com" := by
    unfold mask_email sparkSubstring1
    rw [h0]
    rfl
  refine ⟨h0, by rw [h0]; rfl, hm, ?_, by simp [apply_expression_mask_data]⟩
  exact List.mem_map.mpr ⟨u, hu, by rw [hm]⟩

/-- Witness for C10 at the one-row users input `[(5, "nodomain")]`. -/
theorem apply_expression_mask_data_no_at_witness :
    instrAt ("nodomain" : String).toList = 0 ∧
    (instrAt ("nodomain" : String).toList : Int) - 1 = -1 ∧
    mask_email "nodomain" = "@***.com" ∧
    ({ user_id := 5, MASKED_EMAIL := "@***.com" } : MaskedRow)
        ∈ apply_expression_mask_data [⟨5, "nodomain"⟩] ∧
    (apply_expression_mask_data [⟨5, "nodomain"⟩]).length
        = ([⟨5, "nodomain"⟩] : List UserRow).length :=
  apply_expression_mask_data_no_at [⟨5, "nodomain"⟩] ⟨5, "nodomain"⟩ (by decide)
    (by decide)

/-- C1: the end-to-end composition of masking, join and aggregation on
users `[(1,"a@x.com"), (2,"b@y.com")]` and projects
`[(10, owner 1), (11, owner 1), (12, owner 2)]` produces exactly the row
set `{(1, "a@***.com", 2), (2, "b@***.com", 1)}`. -/
theorem etl_end_to_end_scenario :
    (apply_aggregator_project_count
        (apply_joiner_user_projects
          (apply_expression_mask_data [⟨1, "a@x.com"⟩, ⟨2, "b@y.com"⟩])
          [⟨10, 1⟩, ⟨11, 1⟩, ⟨12, 2⟩])).toFinset
      = ({⟨1, "a@***.com", 2⟩, ⟨2, "b@***.com", 1⟩} : Finset AggRow) := by
  decide

/-- Multiplicity contributed by one master row: the block of joined rows it
produces holds the target row once per detail row matching on both the key
and the selected `project_id`, and nothing when the master row is not the
target's `(user_id, MASKED_EMAIL)`. -/
theorem count_join_block (m : MaskedRow) (prs : List ProjectRow) (u : Int) (e : String)
    (pid : Int) :
    (((prs.filter fun p => p.p_user_id = m.user_id).map fun p =>
        ({ user_id := m.user_id, MASKED_EMAIL := m.MASKED_EMAIL,
           project_id := p.project_id } : JoinedRow)).count ⟨u, e, pid⟩)
      = if m.user_id = u ∧ m.MASKED_EMAIL = e
        then (prs.filter fun p => p.p_user_id = u ∧ p.project_id = pid).length
        else 0 := by
  induction prs with
  | nil => simp
  | cons p ps ih =>
    by_cases hm : m.user_id = u ∧ m.MASKED_EMAIL = e
    · obtain ⟨hm1, hm2⟩ := hm
      subst hm1; subst hm2
      simp only [if_pos (And.intro rfl rfl)] at ih ⊢
      by_cases h1 : p.p_user_id = m.user_id
      · by_cases h2 : p.project_id = pid
        · simp [List.filter_cons, h1, h2, List.count_cons, ih]
        · simp [List.filter_cons, h1, h2, List.count_cons, ih, JoinedRow.mk.injEq]
      · simp [List.filter_cons, h1, ih]
    · simp only [if_neg hm] at ih ⊢
      by_cases h1 : p.p_user_id = m.user_id
      · have hne : (⟨m.user_id, m.MASKED_EMAIL, p.project_id⟩ : JoinedRow) ≠ ⟨u, e, pid⟩ := by
          simp only [Ne, JoinedRow.mk.injEq]
          intro hcon
          exact hm ⟨hcon.1, hcon.2.1⟩
        simp [List.filter_cons, h1, List.count_cons, hne, ih]
      · simp [List.filter_cons, h1, ih]

/-- Bag-level multiplicity of the inner equijoin: each possible output row
appears once per matching (master row, detail row) pair. -/
theorem count_join (mus : List MaskedRow) (prs : List ProjectRow) (u : Int) (e : String)
    (pid : Int) :
    (apply_joiner_user_projects mus prs).count ⟨u, e, pid⟩
      = mus.count ⟨u, e⟩
        * (prs.filter fun p => p.p_user_id = u ∧ p.project_id = pid).length := by
  induction mus with
  | nil => simp [apply_joiner_user_projects]
  | cons m ms ih =>
    rw [apply_joiner_user_projects] at ih ⊢
    rw [List.flatMap_cons, List.count_append, ih, count_join_block, List.count_cons]
    by_cases hm : m = (⟨u, e⟩ : MaskedRow)
    · have : m.user_id = u ∧ m.MASKED_EMAIL = e := by rw [hm]; exact ⟨rfl, rfl⟩
      simp [hm, this, Nat.add_mul]
      exact Nat.add_comm _ _
    · have : ¬(m.user_id = u ∧ m.MASKED_EMAIL = e) := by
        intro hcon
        exact hm (by cases m; simp_all)
      simp [hm, this]

/-- Membership in the joined output comes from a matching master/detail
pair. -/
theorem mem_join {mus : List MaskedRow} {prs : List ProjectRow} {r : JoinedRow}
    (h : r ∈ apply_joiner_user_projects mus prs) :
    ∃ m ∈ mus, ∃ p ∈ prs, p.p_user_id = m.user_id ∧
      r = ⟨m.user_id, m.MASKED_EMAIL, p.project_id⟩ := by
  simp only [apply_joiner_user_projects, List.mem_flatMap, List.mem_map,
    List.mem_filter, decide_eq_true_eq] at h
  obtain ⟨m, hm, p, ⟨hp, hpk⟩, rfl⟩ := h
  exact ⟨m, hm, p, hp, hpk, rfl⟩

/-- An aggregated row's `USER_ID` is the `user_id` of some joined row. -/
theorem mem_agg_key {l : List JoinedRow} {a : AggRow}
    (h : a ∈ apply_aggregator_project_count l) :
    ∃ r ∈ l, r.user_id = a.USER_ID := by
  simp only [apply_aggregator_project_count, List.mem_map] at h
  obtain ⟨k, hk, rfl⟩ := h
  rw [groupKeys] at hk
  obtain ⟨r, hr, hkey⟩ := List.mem_map.mp (List.mem_dedup.mp hk)
  exact ⟨r, hr, by rw [← hkey]; rfl⟩

/-- C3: the join is a standard inner equijoin — each output row appears
once per matching (user, project) pair; a user key with zero matching
projects contributes no joined row and no aggregated row; a project whose
owner key matches no user contributes no joined row. -/
theorem apply_joiner_user_projects_equijoin (mus : List MaskedRow)
    (prs : List ProjectRow) :
    (∀ u e pid, (apply_joiner_user_projects mus prs).count ⟨u, e, pid⟩
        = mus.count ⟨u, e⟩
          * (prs.filter fun p => p.p_user_id = u ∧ p.project_id = pid).length) ∧
    (∀ u, (∀ p ∈ prs, p.p_user_id ≠ u) →
        (∀ r ∈ apply_joiner_user_projects mus prs, r.user_id ≠ u) ∧
        (∀ a ∈ apply_aggregator_project_count (apply_joiner_user_projects mus prs),
            a.USER_ID ≠ u)) ∧
    (∀ k, (∀ m ∈ mus, m.user_id ≠ k) →
        ∀ r ∈ apply_joiner_user_projects mus prs, r.user_id ≠ k) := by
  refine ⟨fun u e pid => count_join mus prs u e pid, ?_, ?_⟩
  · intro u hu
    have hjoin : ∀ r ∈ apply_joiner_user_projects mus prs, r.user_id ≠ u := by
      intro r hr hru
      obtain ⟨m, _, p, hp, hpk, rfl⟩ := mem_join hr
      exact hu p hp (hpk.trans hru)
    refine ⟨hjoin, fun a ha hau => ?_⟩
    obtain ⟨r, hr, hru⟩ := mem_agg_key ha
    exact hjoin r hr (hru.trans hau)
  · intro k hk r hr hrk
    obtain ⟨m, hm, p, _, _, rfl⟩ := mem_join hr
    exact hk m hm hrk

theorem castInt32_eq_self {n : Int} (h0 : 0 ≤ n) (h : n < 2 ^ 31) : castInt32 n = n := by
  unfold castInt32
  omega

theorem dedup_replicate_succ {α : Type} [DecidableEq α] (n : Nat) (a : α) :
    (List.replicate (n + 1) a).dedup = [a] := by
  induction n with
  | zero => simp
  | succ k ih =>
    rw [List.replicate_succ, List.dedup_cons_of_mem
      (List.mem_replicate.mpr ⟨Nat.succ_ne_zero k, rfl⟩), ih]

/-- C4 (amended): the aggregation emits exactly one row per distinct
`(user_id, MASKED_EMAIL)` group of the joined input, and a group of `k`
joined rows (duplicates included) gets `TOTAL_PROJECTS` equal to `k` cast
to 32 bits — equal to `k` itself whenever `k < 2^31`. -/
theorem apply_aggregator_project_count_groups (df_joined : List JoinedRow) :
    (apply_aggregator_project_count df_joined).map (fun a => (a.USER_ID, a.MASKED_EMAIL))
        = (df_joined.map joinKey).dedup ∧
    ((df_joined.map joinKey).dedup).Nodup ∧
    ∀ a ∈ apply_aggregator_project_count df_joined,
      a.TOTAL_PROJECTS
          = castInt32 ((df_joined.filter fun r =>
              joinKey r = (a.USER_ID, a.MASKED_EMAIL)).length) ∧
      (((df_joined.filter fun r =>
            joinKey r = (a.USER_ID, a.MASKED_EMAIL)).length : Int) < 2 ^ 31 →
        a.TOTAL_PROJECTS
          = ((df_joined.filter fun r =>
              joinKey r = (a.USER_ID, a.MASKED_EMAIL)).length : Int)) := by
  refine ⟨?_, List.nodup_dedup _, ?_⟩
  · simp [apply_aggregator_project_count, groupKeys, List.map_map, Function.comp_def]
  · intro a ha
    obtain ⟨k, hk, rfl⟩ := List.mem_map.mp ha
    have hkey : ((k.1, k.2) : Int × String) = k := rfl
    constructor
    · simp only [hkey]
    · intro hlt
      simp only [hkey] at hlt ⊢
      exact castInt32_eq_self (Int.ofNat_nonneg _) hlt

/-- A joined input of `2^31` copies of one row: the grouped count wraps to
`-2^31` under the cast to 32-bit integers. -/
def overflowJoined : List JoinedRow := List.replicate (2 ^ 31) ⟨7, "u@***.com", 99⟩

/-- Counterexample to C4 as stated: a group with `k = 2^31` joined rows
gets `TOTAL_PROJECTS = -2^31`, not `k`, because the count is cast to a
32-bit integer. -/
theorem apply_aggregator_project_count_overflow :
    apply_aggregator_project_count overflowJoined
        = [⟨7, "u@***.com", -(2 ^ 31)⟩] ∧
    (overflowJoined.length : Int) = 2 ^ 31 ∧
    (-(2 ^ 31) : Int) ≠ (2 ^ 31 : Int) := by
  have hded : (overflowJoined.map joinKey).dedup = [((7 : Int), "u@***.com")] := by
    rw [overflowJoined, List.map_replicate]
    have h31 : (2 : Nat) ^ 31 = (2 ^ 31 - 1) + 1 := by norm_num
    rw [h31]
    exact dedup_replicate_succ _ _
  have hfil : overflowJoined.filter (fun r => joinKey r = ((7 : Int), "u@***.com"))
      = overflowJoined := by
    refine List.filter_eq_self.mpr fun b hb => ?_
    rw [overflowJoined] at hb
    rw [List.eq_of_mem_replicate hb]
    decide
  refine ⟨?_, ?_, by norm_num⟩
  · rw [apply_aggregator_project_count, groupKeys, hded]
    simp only [List.map_cons, List.map_nil]
    have hlen : (overflowJoined.filter fun r => joinKey r = ((7 : Int), "u@***.com")).length
        = 2 ^ 31 := by
      rw [hfil, overflowJoined, List.length_replicate]
    rw [hlen]
    have hcast : castInt32 ((2 ^ 31 : Nat) : Int) = -(2 ^ 31) := by
      unfold castInt32
      norm_num
    rw [hcast]
  · rw [overflowJoined, List.length_replicate]
    norm_num

/-- C5 (amended): a successful projects read returns one output row per
source row (no filtering), each selecting the source columns `id` — output
as `project_id` — and `user_id` — output as `p_user_id`, a name distinct
from the user id column `user_id`; the output has exactly those two
columns. -/
theorem read_source_projects_projection (table out : List (List (String × Int)))
    (h : read_source_projects table = some out) :
    out.length = table.length ∧
    List.Forall₂ (fun row orow => ∃ pid uid,
        lookupCol row "id" = some pid ∧ lookupCol row "user_id" = some uid ∧
        orow = [("project_id", pid), ("p_user_id", uid)]) table out ∧
    (∀ orow ∈ out, orow.map Prod.fst = ["project_id", "p_user_id"]) ∧
    ("p_user_id" : String) ≠ "user_id" := by
  induction table generalizing out with
  | nil =>
    rw [read_source_projects] at h
    cases h
    exact ⟨rfl, List.Forall₂.nil, by simp, by decide⟩
  | cons row rest ih =>
    rw [read_source_projects] at h
    rcases hid : lookupCol row "id" with _ | pid <;>
      rcases huid : lookupCol row "user_id" with _ | uid <;>
        rcases hrest : read_source_projects rest with _ | rest_out <;>
          simp [hid, huid, hrest] at h
    subst h
    obtain ⟨hlen, hfa, hnames, hne⟩ := ih rest_out hrest
    refine ⟨by simp [hlen], List.Forall₂.cons ⟨pid, uid, hid, huid, rfl⟩ hfa, ?_, hne⟩
    intro orow horow
    rcases List.mem_cons.mp horow with rfl | hmem
    · rfl
    · exact hnames orow hmem

/-- Witness for C5's amended theorem at the one-row projects table
`[(id = 10, user_id = 3)]`. -/
theorem read_source_projects_projection_witness :
    ([[("project_id", (10 : Int)), ("p_user_id", 3)]] :
        List (List (String × Int))).length
      = ([[("id", (10 : Int)), ("user_id", 3)]] : List (List (String × Int))).length ∧
    List.Forall₂ (fun row orow => ∃ pid uid,
        lookupCol row "id" = some pid ∧ lookupCol row "user_id" = some uid ∧
        orow = [("project_id", pid), ("p_user_id", uid)])
      [[("id", (10 : Int)), ("user_id", 3)]]
      [[("project_id", (10 : Int)), ("p_user_id", 3)]] ∧
    (∀ orow ∈ ([[("project_id", (10 : Int)), ("p_user_id", 3)]] :
        List (List (String × Int))),
      orow.map Prod.fst = ["project_id", "p_user_id"]) ∧
    ("p_user_id" : String) ≠ "user_id" :=
  read_source_projects_projection [[("id", 10), ("user_id", 3)]]
    [[("project_id", 10), ("p_user_id", 3)]] (by decide)

/-- Counterexample to C5 as stated: the reader selects the source column
`user_id`, not `owner_id` — on a projects table whose owner column is
named `owner_id` the read fails, while with `user_id` it succeeds. -/
theorem read_source_projects_owner_id_counterexample :
    read_source_projects [[("id", 10), ("owner_id", 1)]] = none ∧
    lookupCol [("id", 10), ("owner_id", 1)] "owner_id" = some 1 ∧
    read_source_projects [[("id", 10), ("user_id", 1)]]
        = some [[("project_id", 10), ("p_user_id", 1)]] :=
  ⟨by decide, by decide, by decide⟩

/-- C6: the sink write fully replaces the destination — after a successful
run the destination's row set is exactly the newly aggregated set, and a
row present before but absent from the new set is gone (overwrite, never
append or upsert). -/
theorem write_target_user_project_analytics_overwrite (df_final prior : List AggRow) :
    write_target_user_project_analytics df_final prior = df_final ∧
    (∀ r ∈ prior, r ∉ df_final → r ∉ write_target_user_project_analytics df_final prior) ∧
    ∀ (users : List UserRow) (projects : List ProjectRow),
      run_specforge_analytics_etl users projects prior
        = apply_aggregator_project_count
            (apply_joiner_user_projects (apply_expression_mask_data users) projects) := by
  refine ⟨rfl, ?_, fun users projects => rfl⟩
  intro r _ hnot
  simpa [write_target_user_project_analytics, jdbc_write_table] using hnot

/-- C7: invoked with fewer than three positional parameters — `sys.argv`
shorter than 4 entries including the script name — the entry point exits
with the non-zero status 1 and never reaches the pipeline run. -/
theorem main_entry_fail_fast (argv : List String) (h : argv.length < 4) :
    main_entry argv = MainResult.usageExit 1 ∧
    (1 : Nat) ≠ 0 ∧
    ∀ url usr pw, main_entry argv ≠ MainResult.run url usr pw := by
  have hm : main_entry argv = MainResult.usageExit 1 := by
    rw [main_entry, if_pos h]
  refine ⟨hm, one_ne_zero, fun url usr pw hc => ?_⟩
  rw [hm] at hc
  cases hc

/-- Witness for C7 at the two-entry argument vector
`["pipeline.py", "jdbc:postgresql://db"]`. -/
theorem main_entry_fail_fast_witness :
    main_entry ["pipeline.py", "jdbc:postgresql://db"] = MainResult.usageExit 1 ∧
    (1 : Nat) ≠ 0 ∧
    ∀ url usr pw,
      main_entry ["pipeline.py", "jdbc:postgresql://db"] ≠ MainResult.run url usr pw :=
  main_entry_fail_fast ["pipeline.py", "jdbc:postgresql://db"] (by decide)

/-- Observable steps of one run of `run_specforge_analytics_etl`: the six
pipeline calls, the Spark session start and its stop in the `finally`
block. -/
inductive Ev where
  | initSpark
  | readUsers
  | readProjects
  | maskData
  | joinData
  | aggData
  | writeTarget
  | stopSpark
deriving DecidableEq

/-- The results the orchestrator's collaborators return on one run: each
stage either yields its output or raises (an `Except.error` with its
message), exactly the failure points of the Python function. -/
structure EtlEnv where
  initRes : Except String Unit
  usersRes : Except String (List UserRow)
  projectsRes : Except String (List ProjectRow)
  maskRes : List UserRow → Except String (List MaskedRow)
  joinRes : List MaskedRow → List ProjectRow → Except String (List JoinedRow)
  aggRes : List JoinedRow → Except String (List AggRow)
  writeRes : List AggRow → Except String Unit

/-- What one run leaves behind: the ordered steps taken, the propagated
outcome, and the rows committed by a completed sink write. -/
structure EtlRun where
  trace : List Ev
  outcome : Except String Unit
  written : Option (List AggRow)

/-- The pipeline steps in invocation order (teardown excluded). -/
def stageOrder : List Ev :=
  [Ev.initSpark, Ev.readUsers, Ev.readProjects, Ev.maskData, Ev.joinData,
   Ev.aggData, Ev.writeTarget]

/-- The control flow of `run_specforge_analytics_etl`: start Spark, run the
six stages in order feeding each output to the next, re-raise the first
failure, and in the `finally` block stop Spark whenever it was started
(`if spark:`). -/
def run_etl (env : EtlEnv) : EtlRun :=
  match env.initRes with
  | Except.error e => ⟨[Ev.initSpark], Except.error e, none⟩
  | Except.ok _ =>
    match env.usersRes with
    | Except.error e =>
      ⟨[Ev.initSpark, Ev.readUsers, Ev.stopSpark], Except.error e, none⟩
    | Except.ok us =>
      match env.projectsRes with
      | Except.error e =>
        ⟨[Ev.initSpark, Ev.readUsers, Ev.readProjects, Ev.stopSpark],
          Except.error e, none⟩
      | Except.ok ps =>
        match env.maskRes us with
        | Except.error e =>
          ⟨[Ev.initSpark, Ev.readUsers, Ev.readProjects, Ev.maskData, Ev.stopSpark],
            Except.error e, none⟩
        | Except.ok ms =>
          match env.joinRes ms ps with
          | Except.error e =>
            ⟨[Ev.initSpark, Ev.readUsers, Ev.readProjects, Ev.maskData, Ev.joinData,
                Ev.stopSpark], Except.error e, none⟩
          | Except.ok js =>
            match env.aggRes js with
            | Except.error e =>
              ⟨[Ev.initSpark, Ev.readUsers, Ev.readProjects, Ev.maskData, Ev.joinData,
                  Ev.aggData, Ev.stopSpark], Except.error e, none⟩
            | Except.ok ag =>
              match env.writeRes ag with
              | Except.error e =>
                ⟨stageOrder ++ [Ev.stopSpark], Except.error e, none⟩
              | Except.ok _ =>
                ⟨stageOrder ++ [Ev.stopSpark], Except.ok (), some ag⟩

/-- C8: the orchestrator invokes the stages strictly in `stageOrder`,
passing each output as the next input; any stage's failure abandons the
remaining stages and re-raises that stage's error; and the Spark session
is stopped on every exit path on which it was acquired — exactly when
startup succeeded. -/
theorem run_etl_orchestration (env : EtlEnv) :
    (∃ rest, stageOrder
        = ((run_etl env).trace.filter fun ev => ev ≠ Ev.stopSpark) ++ rest) ∧
    (Ev.stopSpark ∈ (run_etl env).trace ↔ env.initRes = Except.ok ()) ∧
    (∀ e, env.initRes = Except.error e →
      run_etl env = ⟨[Ev.initSpark], Except.error e, none⟩) ∧
    (∀ e, env.initRes = Except.ok () → env.usersRes = Except.error e →
      run_etl env
        = ⟨[Ev.initSpark, Ev.readUsers, Ev.stopSpark], Except.error e, none⟩) ∧
    (∀ us e, env.initRes = Except.ok () → env.usersRes = Except.ok us →
      env.projectsRes = Except.error e →
      run_etl env
        = ⟨[Ev.initSpark, Ev.readUsers, Ev.readProjects, Ev.stopSpark],
            Except.error e, none⟩) ∧
    (∀ us ps e, env.initRes = Except.ok () → env.usersRes = Except.ok us →
      env.projectsRes = Except.ok ps → env.maskRes us = Except.error e →
      run_etl env
        = ⟨[Ev.initSpark, Ev.readUsers, Ev.readProjects, Ev.maskData, Ev.stopSpark],
            Except.error e, none⟩) ∧
    (∀ us ps ms e, env.initRes = Except.ok () → env.usersRes = Except.ok us →
      env.projectsRes = Except.ok ps → env.maskRes us = Except.ok ms →
      env.joinRes ms ps = Except.error e →
      run_etl env
        = ⟨[Ev.initSpark, Ev.readUsers, Ev.readProjects, Ev.maskData, Ev.joinData,
              Ev.stopSpark], Except.error e, none⟩) ∧
    (∀ us ps ms js e, env.initRes = Except.ok () → env.usersRes = Except.ok us →
      env.projectsRes = Except.ok ps → env.maskRes us = Except.ok ms →
      env.joinRes ms ps = Except.ok js → env.aggRes js = Except.error e →
      run_etl env
        = ⟨[Ev.initSpark, Ev.readUsers, Ev.readProjects, Ev.maskData, Ev.joinData,
              Ev.aggData, Ev.stopSpark], Except.error e, none⟩) ∧
    (∀ us ps ms js ag e, env.initRes = Except.ok () → env.usersRes = Except.ok us →
      env.projectsRes = Except.ok ps → env.maskRes us = Except.ok ms →
      env.joinRes ms ps = Except.ok js → env.aggRes js = Except.ok ag →
      env.writeRes ag = Except.error e →
      run_etl env = ⟨stageOrder ++ [Ev.stopSpark], Except.error e, none⟩) ∧
    (∀ us ps ms js ag, env.initRes = Except.ok () → env.usersRes = Except.ok us →
      env.projectsRes = Except.ok ps → env.maskRes us = Except.ok ms →
      env.joinRes ms ps = Except.ok js → env.aggRes js = Except.ok ag →
      env.writeRes ag = Except.ok () →
      run_etl env = ⟨stageOrder ++ [Ev.stopSpark], Except.ok (), some ag⟩) := by
  obtain ⟨i, u, p, m, j, a, w⟩ := env
  refine ⟨?_, ?_, ?_, ?_, ?_, ?_, ?_, ?_, ?_, ?_⟩
  · rcases i with e | u0
    · exact ⟨[Ev.readUsers, Ev.readProjects, Ev.maskData, Ev.joinData, Ev.aggData,
        Ev.writeTarget], by simp [run_etl, stageOrder]⟩
    rcases u with e | us
    · exact ⟨[Ev.readProjects, Ev.maskData, Ev.joinData, Ev.aggData, Ev.writeTarget],
        by simp [run_etl, stageOrder]⟩
    rcases p with e | ps
    · exact ⟨[Ev.maskData, Ev.joinData, Ev.aggData, Ev.writeTarget],
        by simp [run_etl, stageOrder]⟩
    rcases hm : m us with e | ms
    · exact ⟨[Ev.joinData, Ev.aggData, Ev.writeTarget],
        by simp [run_etl, stageOrder, hm]⟩
    rcases hj : j ms ps with e | js
    · exact ⟨[Ev.aggData, Ev.writeTarget], by simp [run_etl, stageOrder, hm, hj]⟩
    rcases ha : a js with e | ag
    · exact ⟨[Ev.writeTarget], by simp [run_etl, stageOrder, hm, hj, ha]⟩
    rcases hw : w ag with e | u1
    · exact ⟨[], by simp [run_etl, stageOrder, hm, hj, ha, hw]⟩
    · exact ⟨[], by simp [run_etl, stageOrder, hm, hj, ha, hw]⟩
  · rcases i with e | u0
    · simp [run_etl]
    cases u0
    rcases u with e | us
    · simp [run_etl]
    rcases p with e | ps
    · simp [run_etl]
    rcases hm : m us with e | ms
    · simp [run_etl, hm]
    rcases hj : j ms ps with e | js
    · simp [run_etl, hm, hj]
    rcases ha : a js with e | ag
    · simp [run_etl, hm, hj, ha]
    rcases hw : w ag with e | u1
    · simp [run_etl, stageOrder, hm, hj, ha, hw]
    · simp [run_etl, stageOrder, hm, hj, ha, hw]
  · intro e he
    subst he
    simp [run_etl]
  · intro e hi hu
    subst hi; subst hu
    simp [run_etl]
  · intro us e hi hu hp
    subst hi; subst hu; subst hp
    simp [run_etl]
  · intro us ps e hi hu hp hm
    subst hi; subst hu; subst hp
    have hm' : m us = Except.error e := hm
    simp [run_etl, hm']
  · intro us ps ms e hi hu hp hm hj
    subst hi; subst hu; subst hp
    have hm' : m us = Except.ok ms := hm
    have hj' : j ms ps = Except.error e := hj
    simp [run_etl, hm', hj']
  · intro us ps ms js e hi hu hp hm hj ha
    subst hi; subst hu; subst hp
    have hm' : m us = Except.ok ms := hm
    have hj' : j ms ps = Except.ok js := hj
    have ha' : a js = Except.error e := ha
    simp [run_etl, hm', hj', ha']
  · intro us ps ms js ag e hi hu hp hm hj ha hw
    subst hi; subst hu; subst hp
    have hm' : m us = Except.ok ms := hm
    have hj' : j ms ps = Except.ok js := hj
    have ha' : a js = Except.ok ag := ha
    have hw' : w ag = Except.error e := hw
    simp [run_etl, hm', hj', ha', hw']
  · intro us ps ms js ag hi hu hp hm hj ha hw
    subst hi; subst hu; subst hp
    have hm' : m us = Except.ok ms := hm
    have hj' : j ms ps = Except.ok js := hj
    have ha' : a js = Except.ok ag := ha
    have hw' : w ag = Except.ok () := hw
    simp [run_etl, hm', hj', ha', hw']

end SpecForge
